import Mathlib

/-!
Verification of the PantryVision recipe-acquisition pipeline
(`src/utils/recipe_scraper.py`, class `RecipeScraper`).

The Python module is shallowly embedded below:
* JSON values (`json.loads` output) are the inductive `JVal`;
* Python dicts with string keys are association lists in insertion
  order (`RDict`), with `dictSet`/`dictGet` mirroring assignment and
  `dict.get`;
* parsed HTML pages (`BeautifulSoup` documents) are flat lists of
  elements (`Elem`/`Soup`) carrying tag, classes, attributes, text and,
  for `<script type="application/ld+json">` tags, the result of
  `json.loads` on their content (`none` models a parse error);
* the network is an oracle `Env : String → Option HttpResp`
  (`none` models `requests.get` raising);
* `time.sleep`-based rate limiting and HTTP requests are recorded as
  an event trace (`Event`) so that ordering claims can be stated;
* Python's bounded recursion is a `fuel : Nat` parameter: behaviour at
  any concrete recursion depth below the interpreter limit is exact.
-/

/-- JSON value, the result of `json.loads`. Numbers are modelled as
integers (no claim involves fractional JSON numbers). -/
inductive JVal where
  | null
  | bool (b : Bool)
  | num (n : Int)
  | str (s : String)
  | arr (elems : List JVal)
  | obj (fields : List (String × JVal))

/-- Python truthiness (`if x:`) for JSON values. -/
def JVal.truthy : JVal → Bool
  | .null => false
  | .bool b => b
  | .num n => n != 0
  | .str s => !(s == "")
  | .arr xs => !xs.isEmpty
  | .obj kvs => !kvs.isEmpty

/-- Python `isinstance(v, str)`. -/
def JVal.isStr : JVal → Bool
  | .str _ => true
  | _ => false

/-- A single-quote character, used by `pyRepr` below (named to avoid clashing with the library square). -/
def sglq : String := String.singleton (Char.ofNat 39)

/-- Separator join, Python `sep.join(parts)`. -/
def joinSep (sep : String) : List String → String
  | [] => ""
  | [x] => x
  | x :: xs => x ++ sep ++ joinSep sep xs

mutual
/-- Python `repr` of a JSON value (quote escaping inside strings is not
modelled; no claim exercises it). -/
def pyRepr : JVal → String
  | .null => "None"
  | .bool true => "True"
  | .bool false => "False"
  | .num n => toString n
  | .str s => sglq ++ s ++ sglq
  | .arr xs => "[" ++ joinSep ", " (pyReprElems xs) ++ "]"
  | .obj kvs => "\x7b" ++ joinSep ", " (pyReprFields kvs) ++ "\x7d"
def pyReprElems : List JVal → List String
  | [] => []
  | v :: vs => pyRepr v :: pyReprElems vs
def pyReprFields : List (String × JVal) → List String
  | [] => []
  | (k, v) :: vs => (sglq ++ k ++ sglq ++ ": " ++ pyRepr v) :: pyReprFields vs
end

/-- Python `str()` of a JSON value, as used by f-string interpolation. -/
def pyStr : JVal → String
  | .str s => s
  | v => pyRepr v

/-- A Python dict with string keys, in insertion order.  Recipe records
built by the scrapers are such dicts. -/
abbrev RDict := List (String × JVal)

/-- Dict assignment `d[k] = v`: replaces an existing binding in place,
else appends (dicts built here never hold duplicate keys). -/
def dictSet : RDict → String → JVal → RDict
  | [], k, v => [(k, v)]
  | p :: ps, k, v => if p.1 == k then (k, v) :: ps else p :: dictSet ps k v

/-- Dict lookup `d.get(k)` (`none` = key absent = Python `None`). -/
def dictGet (d : RDict) (k : String) : Option JVal :=
  (d.find? (fun p => p.1 == k)).map (·.2)

/-- Truthiness of `d.get(k)` (absent key, i.e. `None`, is falsy). -/
def truthyOpt : Option JVal → Bool
  | some v => v.truthy
  | none => false

/-- Validation `_validate_recipe_data`: all of `name`, `ingredients`,
`instructions` must be present and truthy. -/
def validateRecipeData (d : RDict) : Bool :=
  ["name", "ingredients", "instructions"].all (fun k => truthyOpt (dictGet d k))

/-! ### Python string primitives -/

/-- Python `str.isspace` characters handled by `str.strip()` / `str.split()`
and the regex class `\s` (ASCII range; the claims exercise ASCII input). -/
def pyIsSpace (c : Char) : Bool :=
  c == ' ' || c == '\t' || c == '\n' || c == '\r' || c == '\x0b' || c == '\x0c'

/-- Whether `needle` occurs at the start of `hay` (character lists). -/
def leadsWith : List Char → List Char → Bool
  | [], _ => true
  | _ :: _, [] => false
  | a :: as, b :: bs => a == b && leadsWith as bs

/-- Whether `needle` occurs somewhere in `hay` (character lists). -/
def occursIn (needle : List Char) : List Char → Bool
  | [] => leadsWith needle []
  | h :: t => leadsWith needle (h :: t) || occursIn needle t

/-- Python substring test `needle in hay`. -/
def strContains (hay needle : String) : Bool :=
  occursIn needle.data hay.data

/-- Python `hay.startswith(needle)`. -/
def pyStartsWith (hay needle : String) : Bool :=
  leadsWith needle.data hay.data

/-- Python `hay.endswith(needle)`. -/
def pyEndsWith (hay needle : String) : Bool :=
  leadsWith needle.data.reverse hay.data.reverse

/-- Python `s.strip()`. -/
def pyStrip (s : String) : String :=
  ⟨((s.data.dropWhile pyIsSpace).reverse.dropWhile pyIsSpace).reverse⟩

/-- Python `s.lower()` (ASCII case mapping; the stop-word comparison in
the source only involves ASCII). -/
def pyLower (s : String) : String :=
  ⟨s.data.map Char.toLower⟩

/-- Python `s.replace(c, r)` for a one-character pattern. -/
def pyReplaceChar (s : String) (c : Char) (r : String) : String :=
  ⟨s.data.foldr (fun ch acc => if ch == c then r.data ++ acc else ch :: acc) []⟩

/-- Worker for Python `s.split()`: accumulate the current word
(reversed) and break on whitespace runs. -/
def wordsAux (cur : List Char) : List Char → List (List Char)
  | [] => if cur.isEmpty then [] else [cur.reverse]
  | c :: cs =>
    if pyIsSpace c then
      if cur.isEmpty then wordsAux [] cs else cur.reverse :: wordsAux [] cs
    else
      wordsAux (c :: cur) cs

/-- Python `s.split()` (split on whitespace runs, no empty words). -/
def pySplitWs (s : String) : List String :=
  (wordsAux [] s.data).map (fun l => ⟨l⟩)

/-- Python slicing `l[:n]` for a possibly negative `n`. -/
def takeInt (l : List α) (n : Int) : List α :=
  if 0 ≤ n then l.take n.toNat else l.take (l.length - (-n).toNat)

/-- UTF-8 bytes of one character (as `Nat`s), for `quote_plus`. -/
def utf8Bytes (c : Char) : List Nat :=
  let n := c.toNat
  if n < 0x80 then [n]
  else if n < 0x800 then [0xC0 + n / 0x40, 0x80 + n % 0x40]
  else if n < 0x10000 then
    [0xE0 + n / 0x1000, 0x80 + (n / 0x40) % 0x40, 0x80 + n % 0x40]
  else
    [0xF0 + n / 0x40000, 0x80 + (n / 0x1000) % 0x40,
     0x80 + (n / 0x40) % 0x40, 0x80 + n % 0x40]

/-- Upper-case hexadecimal digit. -/
def hexDigit (n : Nat) : Char :=
  if n < 10 then Char.ofNat (48 + n) else Char.ofNat (55 + n)

/-- Python `urllib.parse.quote_plus`: ASCII alphanumerics and `_.-~` kept,
space becomes `+`, every other UTF-8 byte is percent-encoded. -/
def quotePlus (s : String) : String :=
  ⟨s.data.foldr
    (fun c acc =>
      if c == ' ' then '+' :: acc
      else if c.isAlphanum || c == '_' || c == '.' || c == '-' || c == '~' then c :: acc
      else (utf8Bytes c).foldr
        (fun b a => '%' :: hexDigit (b / 16) :: hexDigit (b % 16) :: a) acc)
    []⟩

/-! ### `_clean_recipe_name` -/

/-- The fixed stop-word list `words_to_remove` of `_clean_recipe_name`. -/
def stopWords : List String :=
  ["recipe", "ultimate", "best", "perfect", "easy", "quick", "simple"]

/-- One application of `re.sub(r'^\d+\.\s*', '', s)`: drop a leading
digit run followed by a dot and any whitespace, if present. -/
def stripOrdinal (l : List Char) : List Char :=
  let ds := l.takeWhile Char.isDigit
  let rest := l.dropWhile Char.isDigit
  if ds.isEmpty then l
  else
    match rest with
    | '.' :: r => r.dropWhile pyIsSpace
    | _ => l

/-- Source `_clean_recipe_name`: strip, remove a leading ordinal marker,
drop stop-words (case-insensitively), re-join with single spaces. -/
def cleanRecipeName (recipeName : String) : String :=
  let cleaned := pyStrip recipeName
  let cleaned : String := ⟨stripOrdinal cleaned.data⟩
  let ws := pySplitWs cleaned
  let ws := ws.filter (fun w => !stopWords.contains (pyLower w))
  joinSep " " ws

/-! ### HTML documents (`BeautifulSoup`) -/

/-- One HTML element: tag name, class list, attributes, the stripped
tree text returned by `get_text()`, and — for JSON-LD `<script>` tags —
the result of `json.loads` on the tag content (`none` models either a
missing string or a `json.loads` exception, both of which the source
catches per block). -/
structure Elem where
  tag : String
  classes : List String
  attrs : List (String × String)
  text : String
  scriptData : Option JVal := none

/-- A parsed page: its elements in document order. -/
abbrev Soup := List Elem

/-- Attribute lookup `elem.get(k)` / `elem[k]`. -/
def attrGet (e : Elem) (k : String) : Option String :=
  (e.attrs.find? (fun p => p.1 == k)).map (·.2)

/-- Query `soup.find(tag, class_=cls)`. -/
def findTagClass (soup : Soup) (tag cls : String) : Option Elem :=
  soup.find? (fun e => e.tag == tag && e.classes.contains cls)

/-- Query `soup.find(tag, {k: v})`. -/
def findTagAttr (soup : Soup) (tag k v : String) : Option Elem :=
  soup.find? (fun e => e.tag == tag && attrGet e k == some v)

/-- Query `soup.find_all(tag, class_=cls)`. -/
def findAllTagClass (soup : Soup) (tag cls : String) : List Elem :=
  soup.filter (fun e => e.tag == tag && e.classes.contains cls)

/-- Query `soup.find_all(tag, {k: v})`. -/
def findAllTagAttr (soup : Soup) (tag k v : String) : List Elem :=
  soup.filter (fun e => e.tag == tag && attrGet e k == some v)

/-- Query `soup.find_all(tag, {k: True})` / `soup.find_all(tag, k=True)`. -/
def findAllTagAttrPresent (soup : Soup) (tag k : String) : List Elem :=
  soup.filter (fun e => e.tag == tag && (attrGet e k).isSome)

/-- The `for elem in elements: t = elem.get_text().strip(); if t:
acc.append(t)` pattern shared by every HTML extractor. -/
def collectTexts (els : List Elem) : List String :=
  els.foldl (fun acc e =>
    let t := pyStrip e.text
    if t == "" then acc else acc ++ [t]) []

/-! ### `_parse_json_ld_recipe` and its helpers -/

/-- Lookup in a parsed JSON object (`data.get(k)` / `k in data`
agree on this, as keys of a `json.loads` dict are unique). -/
def jLookup (kvs : List (String × JVal)) (k : String) : Option JVal :=
  (kvs.find? (fun p => p.1 == k)).map (·.2)

/-- Python iteration `for x in v` over a JSON value: lists yield
elements, strings yield one-character strings, dicts yield keys,
anything else raises `TypeError`. -/
def jMembers : JVal → Except Unit (List JVal)
  | .arr xs => .ok xs
  | .str s => .ok (s.data.map (fun c => JVal.str c.toString))
  | .obj kvs => .ok (kvs.map (fun p => JVal.str p.1))
  | _ => .error ()

/-- Python membership `k in v` for a string key: dict key lookup,
substring test on strings, element equality on lists (a string never
equals a non-string), `TypeError` otherwise. -/
def jContains (v : JVal) (k : String) : Except Unit Bool :=
  match v with
  | .obj kvs => .ok (jLookup kvs k).isSome
  | .str s => .ok (strContains s k)
  | .arr xs => .ok (xs.any (fun x => match x with | .str t => t == k | _ => false))
  | _ => .error ()

/-- Python indexing `v[k]` with a string key: only dicts support it. -/
def jIndex (v : JVal) (k : String) : Except Unit JVal :=
  match v with
  | .obj kvs =>
    match jLookup kvs k with
    | some x => .ok x
    | none => .error ()
  | _ => .error ()

/-- The `recipeIngredient` loop: keep the entries that are strings;
iterating a non-iterable raises. -/
def ingredientsOf (d : List (String × JVal)) : Except Unit (List JVal) :=
  match jLookup d "recipeIngredient" with
  | some v =>
    match jMembers v with
    | .ok items => .ok (items.filter JVal.isStr)
    | .error e => .error e
  | none => .ok []

/-- One entry of the `recipeInstructions` loop: a dict yields its
`text` field (default `""`), a string yields itself, anything else is
skipped; falsy text is skipped. -/
def instrText : JVal → Option JVal
  | .obj kvs =>
    let t := (jLookup kvs "text").getD (JVal.str "")
    if t.truthy then some t else none
  | .str s => if (JVal.str s).truthy then some (.str s) else none
  | _ => none

/-- The `recipeInstructions` loop. -/
def instructionsOf (d : List (String × JVal)) : Except Unit (List JVal) :=
  match jLookup d "recipeInstructions" with
  | some v =>
    match jMembers v with
    | .ok items => .ok (items.filterMap instrText)
    | .error e => .error e
  | none => .ok []

/-- The three optional passthrough time fields. -/
def parseTimes (d : List (String × JVal)) (r : RDict) : RDict :=
  let r := match jLookup d "prepTime" with
    | some v => dictSet r "prep_time" v
    | none => r
  let r := match jLookup d "cookTime" with
    | some v => dictSet r "cook_time" v
    | none => r
  match jLookup d "totalTime" with
  | some v => dictSet r "total_time" v
  | none => r

/-- One nutrition sub-field: `if key in nutrition:
parts.append(f"Label: {nutrition[key]}")`. -/
def nutriPart (n : JVal) (key label : String) (acc : List String) :
    Except Unit (List String) :=
  match jContains n key with
  | .error e => .error e
  | .ok true =>
    match jIndex n key with
    | .error e => .error e
    | .ok v => .ok (acc ++ [label ++ ": " ++ pyStr v])
  | .ok false => .ok acc

/-- The four nutrition sub-fields, in source order. -/
def nutritionParts (n : JVal) : Except Unit (List String) :=
  match nutriPart n "calories" "Calories" [] with
  | .error e => .error e
  | .ok acc =>
    match nutriPart n "proteinContent" "Protein" acc with
    | .error e => .error e
    | .ok acc =>
      match nutriPart n "carbohydrateContent" "Carbs" acc with
      | .error e => .error e
      | .ok acc => nutriPart n "fatContent" "Fat" acc

/-- The optional `nutrition` block: join the present sub-fields with
`", "`; set nothing when all four are absent. -/
def parseNutrition (d : List (String × JVal)) (r : RDict) : Except Unit RDict :=
  match jLookup d "nutrition" with
  | some n =>
    match nutritionParts n with
    | .error e => .error e
    | .ok parts =>
      .ok (if parts.isEmpty then r else dictSet r "nutrition" (.str (joinSep ", " parts)))
  | none => .ok r

/-- Source `_parse_json_ld_recipe`.  An exception anywhere in the Python body
escapes to the per-block handler of the caller; the dict built so far
is discarded, so building the final dict after all fallible steps is
observationally equal. -/
def parseJsonLdRecipe (d : List (String × JVal)) : Except Unit RDict :=
  match ingredientsOf d with
  | .error e => .error e
  | .ok ings =>
    match instructionsOf d with
    | .error e => .error e
    | .ok insts =>
      let r := dictSet [] "name" ((jLookup d "name").getD (.str ""))
      let r := dictSet r "description" ((jLookup d "description").getD (.str ""))
      let r := dictSet r "ingredients" (.arr ings)
      let r := dictSet r "instructions" (.arr insts)
      parseNutrition d (parseTimes d r)

/-- Source `_is_recipe_type` applied to `data.get('@type')`. -/
def isRecipeTypeV : Option JVal → Bool
  | some (.str s) => s == "Recipe"
  | some (.arr xs) => xs.any (fun x => match x with | .str t => t == "Recipe" | _ => false)
  | _ => false

/-- The JSON-LD scripts of a page:
`soup.find_all('script', type='application/ld+json')`, each reduced to
its `json.loads` outcome. -/
def ldScripts (soup : Soup) : List (Option JVal) :=
  (findAllTagAttr soup "script" "type" "application/ld+json").map (·.scriptData)

/-- What one JSON-LD block contributes in `_scrape_allrecipes`: a
top-level list is scanned for its first dict item of type Recipe, a
top-level dict is used if of type Recipe; a `json.loads` or
`_parse_json_ld_recipe` exception skips the block. -/
def blockRecipe : Option JVal → Option RDict
  | some (.arr items) =>
    match items.find? (fun it => match it with
      | .obj kvs => isRecipeTypeV (jLookup kvs "@type")
      | _ => false) with
    | some (.obj kvs) => (parseJsonLdRecipe kvs).toOption
    | _ => none
  | some (.obj kvs) =>
    if isRecipeTypeV (jLookup kvs "@type") then (parseJsonLdRecipe kvs).toOption else none
  | _ => none

/-- The `for json_ld in json_ld_scripts` loop: first block that yields
a parsed recipe wins; failing blocks are skipped individually. -/
def scanLd : List (Option JVal) → Option RDict
  | [] => none
  | b :: rest =>
    match blockRecipe b with
    | some r => some r
    | none => scanLd rest

/-! ### Per-domain HTML extractors -/

/-- The shared `prep`/`cook` time loop of `_scrape_allrecipes` and
`_scrape_foodnetwork` (identical bodies in the source). -/
def timeMetaStep (r : RDict) (e : Elem) : RDict :=
  let t := pyStrip e.text
  if strContains (pyLower t) "prep" then dictSet r "prep_time" (.str t)
  else if strContains (pyLower t) "cook" then dictSet r "cook_time" (.str t)
  else r

/-- Source `_scrape_allrecipes`: JSON-LD first, then HTML selectors. -/
def scrapeAllrecipes (soup : Soup) (_url : String) : Option RDict :=
  match scanLd (ldScripts soup) with
  | some r => some r
  | none =>
    let r : RDict := []
    let r := match (findTagClass soup "h1" "headline").orElse
        (fun _ => findTagAttr soup "h1" "data-testid" "recipe-title") with
      | some e => dictSet r "name" (.str (pyStrip e.text))
      | none => r
    let r := match (findTagClass soup "div" "recipe-summary").orElse
        (fun _ => findTagAttr soup "div" "data-testid" "recipe-summary") with
      | some e => dictSet r "description" (.str (pyStrip e.text))
      | none => r
    let ingEls :=
      let a := findAllTagAttrPresent soup "span" "data-ingredient-name"
      if a.isEmpty then findAllTagClass soup "li" "ingredients-item" else a
    let r := dictSet r "ingredients" (.arr ((collectTexts ingEls).map .str))
    let instEls :=
      let a := findAllTagClass soup "li" "instructions-section-item"
      if a.isEmpty then findAllTagAttr soup "div" "data-testid" "recipe-instruction" else a
    let r := dictSet r "instructions" (.arr ((collectTexts instEls).map .str))
    let r := (findAllTagAttr soup "span" "data-testid" "recipe-meta-item").foldl timeMetaStep r
    let r := match findTagAttr soup "div" "data-testid" "nutrition-summary" with
      | some e => dictSet r "nutrition" (.str (pyStrip e.text))
      | none => r
    if truthyOpt (dictGet r "name") then some r else none

/-- Source `_scrape_foodnetwork`: HTML selectors only. -/
def scrapeFoodnetwork (soup : Soup) (_url : String) : Option RDict :=
  let r : RDict := []
  let r := match findTagClass soup "h1" "o-AssetTitle__a-HeadlineText" with
    | some e => dictSet r "name" (.str (pyStrip e.text))
    | none => r
  let r := match findTagClass soup "div" "o-AssetDescription__a-Description" with
    | some e => dictSet r "description" (.str (pyStrip e.text))
    | none => r
  let r := dictSet r "ingredients"
    (.arr ((collectTexts (findAllTagClass soup "li" "o-Ingredients__a-ListItem")).map .str))
  let r := dictSet r "instructions"
    (.arr ((collectTexts (findAllTagClass soup "li" "o-Method__m-Step")).map .str))
  let r := (findAllTagClass soup "span" "o-RecipeInfo__a-Description").foldl timeMetaStep r
  if truthyOpt (dictGet r "name") then some r else none

/-- Source `_scrape_bbcgoodfood`: HTML selectors only. -/
def scrapeBbcgoodfood (soup : Soup) (_url : String) : Option RDict :=
  let r : RDict := []
  let r := match findTagClass soup "h1" "post-header__title" with
    | some e => dictSet r "name" (.str (pyStrip e.text))
    | none => r
  let r := match findTagClass soup "div" "post-header__description" with
    | some e => dictSet r "description" (.str (pyStrip e.text))
    | none => r
  let r := dictSet r "ingredients"
    (.arr ((collectTexts (findAllTagClass soup "li" "pb-xxs")).map .str))
  let r := dictSet r "instructions"
    (.arr ((collectTexts (findAllTagClass soup "li" "pb-xs")).map .str))
  if truthyOpt (dictGet r "name") then some r else none

/-- The identical body of `_scrape_seriouseats`, `_scrape_bonappetit`,
`_scrape_food_com`, `_scrape_tasteofhome`, `_scrape_eatingwell`,
`_scrape_cookinglight` and `_scrape_epicurious`: `h1.recipe-title`,
`li.ingredient`, `li.instruction`, no description or times. -/
def scrapeSimpleTitled (soup : Soup) (_url : String) : Option RDict :=
  let r : RDict := []
  let r := match findTagClass soup "h1" "recipe-title" with
    | some e => dictSet r "name" (.str (pyStrip e.text))
    | none => r
  let r := dictSet r "ingredients"
    (.arr ((collectTexts (findAllTagClass soup "li" "ingredient")).map .str))
  let r := dictSet r "instructions"
    (.arr ((collectTexts (findAllTagClass soup "li" "instruction")).map .str))
  if truthyOpt (dictGet r "name") then some r else none

def scrapeSeriouseats : Soup → String → Option RDict := scrapeSimpleTitled
def scrapeBonappetit : Soup → String → Option RDict := scrapeSimpleTitled
def scrapeFoodCom : Soup → String → Option RDict := scrapeSimpleTitled
def scrapeTasteofhome : Soup → String → Option RDict := scrapeSimpleTitled
def scrapeEatingwell : Soup → String → Option RDict := scrapeSimpleTitled
def scrapeCookinglight : Soup → String → Option RDict := scrapeSimpleTitled
def scrapeEpicurious : Soup → String → Option RDict := scrapeSimpleTitled

/-- Registry `self.trusted_domains`: the ten registered domains, each bound to
its extractor, in source order. -/
def trustedDomains : List (String × (Soup → String → Option RDict)) :=
  [("allrecipes.com", scrapeAllrecipes),
   ("foodnetwork.com", scrapeFoodnetwork),
   ("bbcgoodfood.com", scrapeBbcgoodfood),
   ("seriouseats.com", scrapeSeriouseats),
   ("bonappetit.com", scrapeBonappetit),
   ("food.com", scrapeFoodCom),
   ("tasteofhome.com", scrapeTasteofhome),
   ("eatingwell.com", scrapeEatingwell),
   ("cookinglight.com", scrapeCookinglight),
   ("epicurious.com", scrapeEpicurious)]

/-- Key set of `domain in self.trusted_domains`. -/
def trustedNames : List String := trustedDomains.map (·.1)

/-- Lookup `self.trusted_domains[domain]` (`none` models `KeyError`). -/
def scraperFor (d : String) : Option (Soup → String → Option RDict) :=
  (trustedDomains.find? (fun p => p.1 == d)).map (·.2)

/-! ### `_extract_domain` (via `urllib.parse.urlparse`) -/

/-- A character allowed in a URL scheme. -/
def schemeChar (c : Char) : Bool :=
  c.isAlphanum || c == '+' || c == '-' || c == '.'

/-- Drop a leading `scheme:` if the prefix before the first `:` is a
non-empty run of scheme characters (as `urllib.parse.urlsplit` does). -/
def stripScheme (l : List Char) : List Char :=
  match l.findIdx? (· == ':') with
  | some i => if 0 < i && (l.take i).all schemeChar then l.drop (i + 1) else l
  | none => l

/-- Value `urlparse(url).netloc`, or `.error ()` when `urlparse` raises
(mismatched IPv6 brackets in the authority raise `ValueError`). -/
def netlocOf (url : String) : Except Unit String :=
  let rest := stripScheme url.data
  if leadsWith ['/', '/'] rest then
    let nl := (rest.drop 2).takeWhile (fun c => !(c == '/' || c == '?' || c == '#'))
    if (nl.contains '[') != (nl.contains ']') then .error () else .ok ⟨nl⟩
  else .ok ""

/-- Source `_extract_domain`: lower-cased netloc with a leading `www.`
stripped; the bare `except` maps any parse failure to `""`. -/
def extractDomain (url : String) : String :=
  match netlocOf url with
  | .error _ => ""
  | .ok nl =>
    let d := pyLower nl
    if pyStartsWith d "www." then ⟨d.data.drop 4⟩ else d

/-! ### Network oracle and event trace -/

/-- One HTTP response: status code, `response.json()` outcome (`none`
models a JSON decode exception) and the parsed HTML body. -/
structure HttpResp where
  status : Nat
  jsonBody : Option JVal
  soup : Soup

/-- The network, as seen through `requests.get`: `none` models the call
raising (timeout, connection error). -/
abbrev Env := String → Option HttpResp

/-- Observable pipeline events: an HTTP request issued by
`_scrape_recipe_from_url`, and an invocation of `_rate_limit`. -/
inductive Event where
  | fetch (url : String)
  | rateLimit
deriving DecidableEq

/-- Whether `e` is a fetch event. -/
def isFetchEvent : Event → Bool
  | .fetch _ => true
  | .rateLimit => false

/-! ### Search strategies -/

/-- The DuckDuckGo API URL built by `_search_recipe_urls`. -/
def ddgApiUrl (recipeName : String) : String :=
  "https://api.duckduckgo.com/?q=" ++ quotePlus (cleanRecipeName recipeName ++ " recipe")
    ++ "&format=json&no_html=1&skip_disambig=1"

/-- The URL candidates `_search_recipe_urls` reads off the parsed API
response: `AbstractURL` if truthy, then each dict topic's truthy
`FirstURL`.  (Values are JSON values; non-strings are kept here, exactly
as in the source, and removed by the trusted-domain filter below, where
`_extract_domain` of a non-string raises and yields `""`.) -/
def ddgCandidates (kvs : List (String × JVal)) : Except Unit (List JVal) :=
  let urls := match jLookup kvs "AbstractURL" with
    | some v => if v.truthy then [v] else []
    | none => []
  match jMembers ((jLookup kvs "RelatedTopics").getD (.arr [])) with
  | .error e => .error e
  | .ok ts =>
    .ok (urls ++ ts.filterMap (fun t =>
      match t with
      | .obj tk =>
        match jLookup tk "FirstURL" with
        | some v => if v.truthy then some v else none
        | none => none
      | _ => none))

/-- Source `_search_recipe_urls`: query the instant-answer API, collect
candidate URLs, filter to trusted domains, truncate; every failure path
(request exception, non-200 status, JSON decode error, malformed
response shape) is caught and yields `[]`. -/
def searchRecipeUrls (env : Env) (recipeName : String) (maxResults : Int) : List String :=
  match env (ddgApiUrl recipeName) with
  | none => []
  | some resp =>
    if resp.status == 200 then
      match resp.jsonBody with
      | none => []
      | some (.obj kvs) =>
        match ddgCandidates kvs with
        | .error _ => []
        | .ok urls =>
          takeInt (urls.filterMap (fun u =>
            match u with
            | .str s => if trustedNames.contains (extractDomain s) then some s else none
            | _ => none)) maxResults
      | some _ => []
    else []

/-- Source `_search_with_duckduckgo`. -/
def searchWithDuckduckgo (env : Env) (recipeName : String) (maxResults : Int) : List String :=
  searchRecipeUrls env recipeName maxResults

/-- Source `_search_with_direct_urls`: one constructed AllRecipes search URL. -/
def searchWithDirectUrls (recipeName : String) (maxResults : Int) : List String :=
  takeInt ["https://www.allrecipes.com/search?q=" ++ quotePlus (cleanRecipeName recipeName)]
    maxResults

/-- Source `_search_with_allrecipes_direct`: three slug guesses. -/
def searchWithAllrecipesDirect (recipeName : String) (maxResults : Int) : List String :=
  let cleanName := cleanRecipeName recipeName
  let pats := [pyReplaceChar (pyLower cleanName) ' ' "-",
               pyReplaceChar (pyLower cleanName) ' ' "",
               pyReplaceChar (pyLower cleanName) ' ' "_"]
  takeInt (pats.map (fun p => "https://www.allrecipes.com/recipe/" ++ p ++ "/")) maxResults

/-- The strategy chain of `search_and_scrape_recipe`, in source order. -/
def searchStrategies : List (Env → String → Int → List String) :=
  [searchWithDuckduckgo,
   fun _ n m => searchWithDirectUrls n m,
   fun _ n m => searchWithAllrecipesDirect n m]

/-! ### `_parse_allrecipes_search_results` and `_scrape_recipe_from_url` -/

/-- One link of the search-results loop: accept an href containing
`/recipe/` not already collected, absolutise a root-relative one, keep
it when it still contains `/recipe/` and ends in `/`. -/
def searchResultStep (urls : List String) (e : Elem) : List String :=
  let href := (attrGet e "href").getD ""
  if strContains href "/recipe/" && !urls.contains href then
    match (if pyStartsWith href "/" then some ("https://www.allrecipes.com" ++ href)
           else if pyStartsWith href "http" then some href
           else none) with
    | some h => if strContains h "/recipe/" && pyEndsWith h "/" then urls ++ [h] else urls
    | none => urls
  else urls

/-- Source `_parse_allrecipes_search_results`: scan all anchors, top 5. -/
def parseAllrecipesSearchResults (soup : Soup) : List String :=
  ((findAllTagAttrPresent soup "a" "href").foldl searchResultStep []).take 5

/-- Source `_scrape_recipe_from_url`, returning the scraped record (already
stamped with `source_url`/`scraped_from`) and the fetches it issued.
`fuel` is the Python recursion headroom: at `0` the recursive call
itself raises (`RecursionError`), which the function's `except` turns
into `None`; for executions shallower than the interpreter limit the
model is exact.  A request exception or a 4xx/5xx status
(`raise_for_status`) is caught and yields `None`. -/
def scrapeFromUrl (env : Env) : Nat → String → String → Option RDict × List Event
  | 0, _, _ => (none, [])
  | fuel + 1, url, domain =>
    match env url with
    | none => (none, [Event.fetch url])
    | some resp =>
      if 400 ≤ resp.status && resp.status < 600 then (none, [Event.fetch url])
      else if strContains url "/search?" && domain == "allrecipes.com" then
        match parseAllrecipesSearchResults resp.soup with
        | [] => (none, [Event.fetch url])
        | u :: _ =>
          let next := scrapeFromUrl env fuel u domain
          (next.1, Event.fetch url :: next.2)
      else
        match scraperFor domain with
        | none => (none, [Event.fetch url])
        | some f =>
          match f resp.soup url with
          | none => (none, [Event.fetch url])
          | some r =>
            (some (dictSet (dictSet r "source_url" (.str url)) "scraped_from" (.str domain)),
             [Event.fetch url])

/-! ### The orchestrator `search_and_scrape_recipe` -/

/-- One candidate URL of the inner loop: extract the domain; if
trusted, scrape and keep the record only when truthy and valid; in
every case finish with `_rate_limit()` (the `except ...: continue`
around the scrape is unreachable because `_scrape_recipe_from_url`
catches its own exceptions). -/
def processUrl (env : Env) (fuel : Nat) (url : String) : Option RDict × List Event :=
  let domain := extractDomain url
  if trustedNames.contains domain then
    let res := scrapeFromUrl env fuel url domain
    let kept := match res.1 with
      | some d => if !d.isEmpty && validateRecipeData d then some d else none
      | none => none
    (kept, res.2 ++ [Event.rateLimit])
  else
    (none, [Event.rateLimit])

/-- The `for url in recipe_urls` loop, with its early break once
`len(recipes) >= max_results`. -/
def urlLoop (env : Env) (fuel : Nat) (maxResults : Int) :
    List String → List RDict → List RDict × List Event
  | [], recipes => (recipes, [])
  | url :: rest, recipes =>
    if maxResults ≤ (recipes.length : Int) then (recipes, [])
    else
      let pr := processUrl env fuel url
      let recipes := match pr.1 with
        | some d => recipes ++ [d]
        | none => recipes
      let nxt := urlLoop env fuel maxResults rest recipes
      (nxt.1, pr.2 ++ nxt.2)

/-- The `for strategy in search_strategies` loop, with its early break. -/
def stratLoop (env : Env) (fuel : Nat) (recipeName : String) (maxResults : Int) :
    List (Env → String → Int → List String) → List RDict → List RDict × List Event
  | [], recipes => (recipes, [])
  | strat :: rest, recipes =>
    if maxResults ≤ (recipes.length : Int) then (recipes, [])
    else
      let urls := strat env recipeName (maxResults * 2)
      let inner := urlLoop env fuel maxResults urls recipes
      let nxt := stratLoop env fuel recipeName maxResults rest inner.1
      (nxt.1, inner.2 ++ nxt.2)

/-- Source `search_and_scrape_recipe`: the acquisition entry point, returning
the accumulated records and the run's event trace. -/
def searchAndScrapeRecipe (env : Env) (fuel : Nat) (recipeName : String)
    (maxResults : Int) : List RDict × List Event :=
  stratLoop env fuel recipeName maxResults searchStrategies []

/-! ### Concrete pages and network oracles used as test inputs -/

/-- A page whose only content is a JSON-LD Recipe block. -/
def ldSoupC1 : Soup :=
  [{ tag := "script", classes := [], attrs := [("type", "application/ld+json")], text := "",
     scriptData := some (.obj [("@type", .str "Recipe"), ("name", .str "Chicken"),
       ("recipeIngredient", .arr [.str "2 cups rice"]),
       ("recipeInstructions", .arr [.str "Cook."])]) }]

/-- A network where only the guessed AllRecipes recipe URL for
`"chicken"` answers, with the JSON-LD page. -/
def envC1 : Env := fun u =>
  if u == "https://www.allrecipes.com/recipe/chicken/" then some ⟨200, none, ldSoupC1⟩
  else none

/-- The record the pipeline extracts from `envC1`. -/
def recC1 : RDict :=
  [("name", .str "Chicken"), ("description", .str ""),
   ("ingredients", .arr [.str "2 cups rice"]), ("instructions", .arr [.str "Cook."]),
   ("source_url", .str "https://www.allrecipes.com/recipe/chicken/"),
   ("scraped_from", .str "allrecipes.com")]

/-- A network on which every request raises. -/
def envDown : Env := fun _ => none

/-- An off-registry absolute recipe link. -/
def evilUrl : String := "http://evil.com/recipe/x/"

/-- A search-results page whose only recipe-shaped link points at an
off-registry host. -/
def evilSoup : Soup :=
  [{ tag := "a", classes := [], attrs := [("href", evilUrl)], text := "" }]

/-- A network where the constructed AllRecipes search page for `"z"`
answers with `evilSoup`. -/
def envC3 : Env := fun u =>
  if u == "https://www.allrecipes.com/search?q=z" then some ⟨200, none, evilSoup⟩
  else none

/-- A results page whose first (and only) extracted link is itself a
search-results-shaped URL. -/
def loopSoup : Soup :=
  [{ tag := "a", classes := [], attrs := [("href", "/search?q=a/recipe/b/")], text := "" }]

/-- A network where every search-shaped URL answers with `loopSoup`. -/
def envC5 : Env := fun u =>
  if strContains u "/search?" then some ⟨200, none, loopSoup⟩ else none

/-- A results page with one ordinary recipe link. -/
def onceSoup : Soup :=
  [{ tag := "a", classes := [], attrs := [("href", "/recipe/good-dish/")], text := "" }]

/-- A network where one search URL answers with `onceSoup` and
everything else raises. -/
def envC5w : Env := fun u =>
  if u == "https://www.allrecipes.com/search?q=stew" then some ⟨200, none, onceSoup⟩
  else none

/-- A page holding both a JSON-LD Recipe block and AllRecipes /
FoodNetwork HTML markup, to exercise extractor priority. -/
def dualSoup : Soup :=
  [{ tag := "script", classes := [], attrs := [("type", "application/ld+json")], text := "",
     scriptData := some (.obj [("@type", .str "Recipe"), ("name", .str "LD Dish"),
       ("recipeIngredient", .arr [.str "ld ing"]),
       ("recipeInstructions", .arr [.str "ld step"])]) },
   { tag := "h1", classes := ["headline"], attrs := [], text := "HTML Dish" },
   { tag := "h1", classes := ["o-AssetTitle__a-HeadlineText"], attrs := [], text := "HTML Dish" }]

/-- The record `_parse_json_ld_recipe` produces from the block in
`dualSoup`. -/
def recLD : RDict :=
  [("name", .str "LD Dish"), ("description", .str ""),
   ("ingredients", .arr [.str "ld ing"]), ("instructions", .arr [.str "ld step"])]

/-- The JSON-LD object of the C7 end-to-end scenario. -/
def objC7 : List (String × JVal) :=
  [("@type", .str "Recipe"), ("name", .str "Rice"),
   ("recipeIngredient", .arr [.str "2 cups rice", .str "1 onion"]),
   ("recipeInstructions", .arr [.obj [("text", .str "Boil rice")], .str "Dice onion"]),
   ("nutrition", .obj [("calories", .str "100 kcal"), ("fatContent", .str "2 g")])]

/-- A FoodNetwork page with name, ingredients and instructions but no
description element. -/
def fnSoup : Soup :=
  [{ tag := "h1", classes := ["o-AssetTitle__a-HeadlineText"], attrs := [], text := "Good Soup" },
   { tag := "li", classes := ["o-Ingredients__a-ListItem"], attrs := [], text := "1 carrot" },
   { tag := "li", classes := ["o-Method__m-Step"], attrs := [], text := "Chop." }]

/-- A candidate URL whose authority has an unmatched IPv6 bracket, on
which `urlparse` raises `ValueError`. -/
def badUrl : String := "http://[oops/x"

/-! ### Helper lemmas -/

theorem dictGet_dictSet_self (d : RDict) (k : String) (v : JVal) :
    dictGet (dictSet d k v) k = some v := by
  induction d with
  | nil => simp [dictSet, dictGet, List.find?]
  | cons p ps ih =>
    by_cases h : p.1 = k
    · simp [dictSet, dictGet, h, List.find?]
    · have hb : (p.1 == k) = false := by simpa using h
      simp [dictSet, dictGet, hb, List.find?] at ih ⊢
      exact ih

theorem dictGet_cons (p : String × JVal) (ps : RDict) (k : String) :
    dictGet (p :: ps) k = if p.1 == k then some p.2 else dictGet ps k := by
  by_cases h : p.1 = k
  · have hb : (p.1 == k) = true := by simpa using h
    simp [dictGet, List.find?, hb]
  · have hb : (p.1 == k) = false := by simpa using h
    simp [dictGet, List.find?, hb]

theorem dictGet_dictSet_ne (d : RDict) (k k2 : String) (v : JVal) (h : k ≠ k2) :
    dictGet (dictSet d k v) k2 = dictGet d k2 := by
  induction d with
  | nil =>
    have hb : (k == k2) = false := by simpa using h
    simp [dictSet, dictGet, List.find?, hb]
  | cons p ps ih =>
    by_cases hp : p.1 = k
    · have hpb : (p.1 == k) = true := by simpa using hp
      have hb : (k == k2) = false := by simpa using h
      have hpk2 : (p.1 == k2) = false := by rw [hp]; exact hb
      simp [dictSet, hpb, dictGet_cons, hb, hpk2]
    · have hb : (p.1 == k) = false := by simpa using hp
      simp only [dictSet, hb, Bool.false_eq_true, if_false, dictGet_cons]
      rw [ih]

theorem scrapeFromUrl_events_fetch (env : Env) :
    ∀ (fuel : Nat) (url domain : String),
      ((scrapeFromUrl env fuel url domain).2).all isFetchEvent = true := by
  intro fuel
  induction fuel with
  | zero => intro url domain; simp [scrapeFromUrl]
  | succ n ih =>
    intro url domain
    simp only [scrapeFromUrl]
    cases env url with
    | none => simp [isFetchEvent]
    | some resp =>
      simp only
      split
      · simp [isFetchEvent]
      · split
        · split
          · simp [isFetchEvent]
          · simpa [isFetchEvent] using ih _ domain
        · cases scraperFor domain with
          | none => simp [isFetchEvent]
          | some f =>
            simp only
            cases f resp.soup url with
            | none => simp [isFetchEvent]
            | some r => simp [isFetchEvent]

theorem processUrl_valid (env : Env) (fuel : Nat) (url : String) (d : RDict)
    (h : (processUrl env fuel url).1 = some d) : validateRecipeData d = true := by
  simp only [processUrl] at h
  split at h
  · split at h
    · split at h
      · rename_i hcond
        cases h
        exact (Bool.and_elim_right hcond)
      · cases h
    · cases h
  · cases h

theorem urlLoop_mem (env : Env) (fuel : Nat) (maxr : Int) :
    ∀ (urls : List String) (acc : List RDict) (r : RDict),
      r ∈ (urlLoop env fuel maxr urls acc).1 →
      r ∈ acc ∨ validateRecipeData r = true := by
  intro urls
  induction urls with
  | nil => intro acc r h; exact Or.inl (by simpa [urlLoop] using h)
  | cons url rest ih =>
    intro acc r h
    simp only [urlLoop] at h
    split at h
    · exact Or.inl h
    · rcases hk : (processUrl env fuel url).1 with _ | d
      · rw [hk] at h
        exact ih acc r h
      · rw [hk] at h
        rcases ih (acc ++ [d]) r h with hin | hv
        · rcases List.mem_append.mp hin with hin | hin
          · exact Or.inl hin
          · right
            have : r = d := by simpa using hin
            subst this
            exact processUrl_valid env fuel url r hk
        · exact Or.inr hv

theorem stratLoop_mem (env : Env) (fuel : Nat) (nm : String) (maxr : Int) :
    ∀ (strats : List (Env → String → Int → List String)) (acc : List RDict) (r : RDict),
      r ∈ (stratLoop env fuel nm maxr strats acc).1 →
      r ∈ acc ∨ validateRecipeData r = true := by
  intro strats
  induction strats with
  | nil => intro acc r h; exact Or.inl (by simpa [stratLoop] using h)
  | cons s rest ih =>
    intro acc r h
    simp only [stratLoop] at h
    split at h
    · exact Or.inl h
    · rcases ih _ r h with hin | hv
      · rcases urlLoop_mem env fuel maxr _ acc r hin with hin2 | hv2
        · exact Or.inl hin2
        · exact Or.inr hv2
      · exact Or.inr hv

theorem urlLoop_len (env : Env) (fuel : Nat) (maxr : Int) :
    ∀ (urls : List String) (acc : List RDict),
      ((urlLoop env fuel maxr urls acc).1.length : Int) ≤
        max maxr (acc.length : Int) := by
  intro urls
  induction urls with
  | nil => intro acc; simp [urlLoop]
  | cons url rest ih =>
    intro acc
    simp only [urlLoop]
    split
    · simp
    · rename_i hlt
      rcases hk : (processUrl env fuel url).1 with _ | d
      · exact le_trans (ih acc) (by simp)
      · have h1 := ih (acc ++ [d])
        have h2 : ((acc ++ [d]).length : Int) ≤ maxr := by
          have : ¬ maxr ≤ (acc.length : Int) := hlt
          simp only [List.length_append, List.length_cons, List.length_nil]
          push_cast
          omega
        calc ((urlLoop env fuel maxr rest (acc ++ [d])).1.length : Int)
            ≤ max maxr ((acc ++ [d]).length : Int) := h1
          _ ≤ max maxr maxr := by exact max_le_max le_rfl h2 |>.trans (by simp)
          _ ≤ max maxr (acc.length : Int) := by simp

theorem stratLoop_len (env : Env) (fuel : Nat) (nm : String) (maxr : Int) :
    ∀ (strats : List (Env → String → Int → List String)) (acc : List RDict),
      ((stratLoop env fuel nm maxr strats acc).1.length : Int) ≤
        max maxr (acc.length : Int) := by
  intro strats
  induction strats with
  | nil => intro acc; simp [stratLoop]
  | cons s rest ih =>
    intro acc
    simp only [stratLoop]
    split
    · simp
    · rename_i hlt
      have h1 := ih (urlLoop env fuel maxr (s env nm (maxr * 2)) acc).1
      have h2 := urlLoop_len env fuel maxr (s env nm (maxr * 2)) acc
      have hle : ¬ maxr ≤ (acc.length : Int) := hlt
      calc ((stratLoop env fuel nm maxr rest
              (urlLoop env fuel maxr (s env nm (maxr * 2)) acc).1).1.length : Int)
          ≤ max maxr ((urlLoop env fuel maxr (s env nm (maxr * 2)) acc).1.length : Int) := h1
        _ ≤ max maxr (max maxr (acc.length : Int)) := max_le_max le_rfl h2
        _ ≤ max maxr (acc.length : Int) := by
            rcases le_total maxr (acc.length : Int) with h | h <;> simp [max_def] <;> omega

/-- Claim C1. Every record in the sequence returned by
`search_and_scrape_recipe` has a present-and-non-empty `name`, a
non-empty `ingredients` sequence and a non-empty `instructions`
sequence (truthiness of each required field, which is non-emptiness for
strings and lists); a record failing `_validate_recipe_data` is never
appended, for any network, recipe name and quota. -/
theorem c1_returned_records_valid (env : Env) (fuel : Nat) (recipeName : String)
    (maxResults : Int) (r : RDict)
    (h : r ∈ (searchAndScrapeRecipe env fuel recipeName maxResults).1) :
    truthyOpt (dictGet r "name") = true ∧
    truthyOpt (dictGet r "ingredients") = true ∧
    truthyOpt (dictGet r "instructions") = true := by
  have hv : validateRecipeData r = true := by
    rcases stratLoop_mem env fuel recipeName maxResults searchStrategies [] r h with hin | hv
    · cases hin
    · exact hv
  simp only [validateRecipeData, List.all_cons, List.all_nil, Bool.and_eq_true,
    and_true] at hv
  exact ⟨hv.1, hv.2.1, hv.2.2⟩

/-- Claim C1 witness: on the concrete network `envC1` the pipeline
returns exactly the JSON-LD record `recC1`, and the theorem applies to
it. -/
theorem c1_returned_records_valid_witness :
    recC1 ∈ (searchAndScrapeRecipe envC1 2 "chicken" 1).1 ∧
    (truthyOpt (dictGet recC1 "name") = true ∧
     truthyOpt (dictGet recC1 "ingredients") = true ∧
     truthyOpt (dictGet recC1 "instructions") = true) := by
  have hmem : recC1 ∈ (searchAndScrapeRecipe envC1 2 "chicken" 1).1 := by
    have heq : (searchAndScrapeRecipe envC1 2 "chicken" 1).1 = [recC1] := by rfl
    rw [heq]
    exact List.mem_singleton.mpr rfl
  exact ⟨hmem, c1_returned_records_valid envC1 2 "chicken" 1 recC1 hmem⟩

theorem processUrl_none_of_envNone (env : Env) (fuel : Nat) (url : String)
    (h : env url = none) : (processUrl env fuel url).1 = none := by
  have hs : (scrapeFromUrl env fuel url (extractDomain url)).1 = none := by
    cases fuel with
    | zero => rfl
    | succ n => simp [scrapeFromUrl, h]
  simp only [processUrl]
  split
  · simp [hs]
  · rfl

/-- Claim C2, counterexample. As stated, the claim quantifies over *every*
`max_results`.  At `max_results = -1` the entry point returns the empty
sequence (`0` records), and `0 ≤ -1` is false, so "returns at most
`max_results` records" fails for negative quotas (which the source
accepts without raising). -/
theorem c2_cx_negative_quota :
    ¬ (((searchAndScrapeRecipe envDown 1 "x" (-1)).1.length : Int) ≤ -1) := by
  have h : (searchAndScrapeRecipe envDown 1 "x" (-1)).1 = [] := by rfl
  rw [h]
  decide

/-- Claim C2, amended. For every network, name and quota the entry point
returns at most `max(max_results, 0)` records (hence at most
`max_results` whenever `max_results ≥ 0`); a candidate whose fetch
raises contributes zero records and the loop continues with the
remaining candidates; a DuckDuckGo strategy whose API request raises
yields zero candidates.  The model is total — no failure of a
candidate or strategy escapes to the caller. -/
theorem c2_quota_and_failure_isolation :
    (∀ (env : Env) (fuel : Nat) (recipeName : String) (maxResults : Int),
       ((searchAndScrapeRecipe env fuel recipeName maxResults).1.length : Int) ≤
         max maxResults 0) ∧
    (∀ (env : Env) (fuel : Nat) (maxResults : Int) (url : String)
       (rest : List String) (acc : List RDict),
       env url = none →
       (urlLoop env fuel maxResults (url :: rest) acc).1 =
         (urlLoop env fuel maxResults rest acc).1) ∧
    (∀ (env : Env) (recipeName : String) (m : Int),
       env (ddgApiUrl recipeName) = none →
       searchRecipeUrls env recipeName m = []) := by
  refine ⟨?_, ?_, ?_⟩
  · intro env fuel recipeName maxResults
    simpa using stratLoop_len env fuel recipeName maxResults searchStrategies []
  · intro env fuel maxResults url rest acc h
    have hn := processUrl_none_of_envNone env fuel url h
    simp only [urlLoop]
    split
    · rename_i hge
      cases rest with
      | nil => simp [urlLoop]
      | cons u2 r2 => simp [urlLoop, hge]
    · rw [hn]
  · intro env recipeName m h
    simp [searchRecipeUrls, h]

/-- Claim C2 witness: the amended statement applied on a concrete dead
network at quota 2. -/
theorem c2_quota_and_failure_isolation_witness :
    ((searchAndScrapeRecipe envDown 1 "soup" 2).1.length : Int) ≤ max 2 0 ∧
    (urlLoop envDown 1 2 ["https://www.allrecipes.com/recipe/a/"] []).1 =
      (urlLoop envDown 1 2 [] []).1 ∧
    searchRecipeUrls envDown "soup" 4 = [] :=
  ⟨c2_quota_and_failure_isolation.1 envDown 1 "soup" 2,
   c2_quota_and_failure_isolation.2.1 envDown 1 2 _ [] [] rfl,
   c2_quota_and_failure_isolation.2.2 envDown "soup" 4 rfl⟩

theorem processUrl_untrusted (env : Env) (fuel : Nat) (url : String)
    (h : trustedNames.contains (extractDomain url) = false) :
    processUrl env fuel url = (none, [Event.rateLimit]) := by
  simp only [processUrl]
  rw [h]
  simp

/-- Claim C3, counterexample. The claim says no HTTP request is ever
issued for a candidate whose normalized host is outside the registry.
But a link substituted from an AllRecipes search-results page is
fetched with no registry re-check: on `envC3` the trusted search page
embeds the absolute link `http://evil.com/recipe/x/`, the pipeline
substitutes it as the real candidate and fetches it, although
`evil.com` is not a trusted domain. -/
theorem c3_cx_untrusted_fetch :
    Event.fetch evilUrl ∈ (searchAndScrapeRecipe envC3 2 "z" 1).2 ∧
    trustedNames.contains (extractDomain evilUrl) = false := by
  constructor
  · have h : (searchAndScrapeRecipe envC3 2 "z" 1).2 =
        [Event.fetch "https://www.allrecipes.com/search?q=z", Event.fetch evilUrl,
         Event.rateLimit, Event.fetch "https://www.allrecipes.com/recipe/z/",
         Event.rateLimit, Event.fetch "https://www.allrecipes.com/recipe/z/",
         Event.rateLimit] := by rfl
    rw [h]
    simp
  · rfl

/-- Claim C3, amended. Candidate URLs produced by the search strategies
are fetched only when their normalized host is registered: a candidate
list whose every member resolves outside the registry generates no
fetch at all, only rate-limit ticks.  (Links substituted from a
search-results page, however, are fetched without a registry re-check —
see the counterexample.) -/
theorem c3_untrusted_candidates_never_fetched (env : Env) (fuel : Nat) (maxResults : Int)
    (urls : List String) (acc : List RDict)
    (h : (urls.all (fun u => !(trustedNames.contains (extractDomain u)))) = true) :
    ((urlLoop env fuel maxResults urls acc).2.all (fun e => e == Event.rateLimit)) = true := by
  induction urls generalizing acc with
  | nil => simp [urlLoop]
  | cons url rest ih =>
    simp only [List.all_cons, Bool.and_eq_true] at h
    have h1 : trustedNames.contains (extractDomain url) = false := by
      simpa using h.1
    simp only [urlLoop]
    split
    · simp
    · rw [processUrl_untrusted env fuel url h1]
      have h2 := ih acc h.2
      simp [h2]

/-- Claim C3 witness: a concrete out-of-registry candidate list produces
a trace with zero fetches. -/
theorem c3_untrusted_candidates_never_fetched_witness :
    ((["http://nope.example/a"].all
        (fun u => !(trustedNames.contains (extractDomain u)))) = true) ∧
    ((urlLoop envDown 1 3 ["http://nope.example/a"] []).2.all
        (fun e => e == Event.rateLimit)) = true :=
  ⟨by rfl, c3_untrusted_candidates_never_fetched envDown 1 3 _ [] (by rfl)⟩

theorem scrapeFromUrl_single_fetch (env : Env) (fuel : Nat) (url domain : String)
    (h : strContains url "/search?" = false) :
    (scrapeFromUrl env (fuel + 1) url domain).2 = [Event.fetch url] := by
  simp only [scrapeFromUrl]
  cases env url with
  | none => rfl
  | some resp =>
    simp only
    split
    · rfl
    · rw [h]
      simp only [Bool.false_and, Bool.false_eq_true, if_false]
      cases scraperFor domain with
      | none => rfl
      | some f =>
        simp only
        cases f resp.soup url with
        | none => rfl
        | some r => rfl

/-- Claim C5, counterexample. The claim says the search-results resolution
"recurses at most once: the resolution never follows a second
results-shaped page ... for any sequence of page bodies".  On `envC5`
every results page embeds the link `/search?q=a/recipe/b/`, which
passes the recipe-link filter (it contains `/recipe/` and ends in `/`)
yet is itself results-shaped; the run fetches that results-shaped
substituted candidate twice (and would keep going to the recursion
limit), so a second results-shaped page is followed. -/
theorem c5_cx_follows_second_results_page :
    strContains "https://www.allrecipes.com/search?q=a/recipe/b/" "/search?" = true ∧
    ((searchAndScrapeRecipe envC5 3 "z" 1).2.filter
        (fun e => e == Event.fetch "https://www.allrecipes.com/search?q=a/recipe/b/")).length
      = 2 := by
  exact ⟨by rfl, by rfl⟩

theorem scrapeFromUrl_search_step (env : Env) (fuel : Nat) (url : String)
    (resp : HttpResp) (u2 : String) (rest : List String)
    (h1 : env url = some resp)
    (h2 : resp.status < 400)
    (h3 : strContains url "/search?" = true)
    (h4 : parseAllrecipesSearchResults resp.soup = u2 :: rest) :
    scrapeFromUrl env (fuel + 1) url "allrecipes.com" =
      ((scrapeFromUrl env fuel u2 "allrecipes.com").1,
       Event.fetch url :: (scrapeFromUrl env fuel u2 "allrecipes.com").2) := by
  have hs : (decide (400 ≤ resp.status) && decide (resp.status < 600)) = false := by
    have : ¬ 400 ≤ resp.status := by omega
    simp [this]
  have hd : (("allrecipes.com" : String) == "allrecipes.com") = true := by rfl
  simp only [scrapeFromUrl, h1, hs, Bool.false_eq_true, if_false, h3, hd, Bool.true_and,
    if_true, h4]

/-- Claim C5, amended. The resolution substitutes the first extracted
recipe link and recurses with no depth bound; when that first link is
*not* itself results-shaped the run fetches exactly the results page and
then the substituted link — one substitution, no further recursion.
When the substituted link is again results-shaped it is followed again
(see the counterexample). -/
theorem c5_single_substitution (env : Env) (fuel : Nat) (url : String) (resp : HttpResp)
    (u2 : String) (rest : List String)
    (h1 : env url = some resp)
    (h2 : resp.status < 400)
    (h3 : strContains url "/search?" = true)
    (h4 : parseAllrecipesSearchResults resp.soup = u2 :: rest)
    (h5 : strContains u2 "/search?" = false) :
    (scrapeFromUrl env (fuel + 2) url "allrecipes.com").2 =
      [Event.fetch url, Event.fetch u2] := by
  have hstep := scrapeFromUrl_search_step env (fuel + 1) url resp u2 rest h1 h2 h3 h4
  have : scrapeFromUrl env (fuel + 2) url "allrecipes.com" =
      scrapeFromUrl env (fuel + 1 + 1) url "allrecipes.com" := by rfl
  rw [this, hstep]
  simp only
  rw [scrapeFromUrl_single_fetch env fuel u2 "allrecipes.com" h5]

/-- Claim C5 witness: on `envC5w` the search page for `"stew"` yields the
ordinary recipe link `/recipe/good-dish/` and the resolution performs
exactly one substitution. -/
theorem c5_single_substitution_witness :
    envC5w "https://www.allrecipes.com/search?q=stew" = some ⟨200, none, onceSoup⟩ ∧
    (scrapeFromUrl envC5w 3 "https://www.allrecipes.com/search?q=stew" "allrecipes.com").2 =
      [Event.fetch "https://www.allrecipes.com/search?q=stew",
       Event.fetch "https://www.allrecipes.com/recipe/good-dish/"] :=
  ⟨by rfl,
   c5_single_substitution envC5w 1 _ ⟨200, none, onceSoup⟩
     "https://www.allrecipes.com/recipe/good-dish/" [] (by rfl) (by decide) (by rfl)
     (by rfl) (by rfl)⟩

/-- Claim C8, counterexample. The claim says the rate limiter is invoked
*before* the fetch of every trusted candidate.  On the dead network
`envDown` the very first event of the run is already the fetch of the
first trusted candidate — no `_rate_limit()` call precedes it (the
source calls `_rate_limit()` only *after* processing each candidate). -/
theorem c8_cx_fetch_before_any_limiter_call :
    (searchAndScrapeRecipe envDown 1 "z" 1).2.head? =
      some (Event.fetch "https://www.allrecipes.com/search?q=z") ∧
    (searchAndScrapeRecipe envDown 1 "z" 1).2 =
      [Event.fetch "https://www.allrecipes.com/search?q=z", Event.rateLimit,
       Event.fetch "https://www.allrecipes.com/recipe/z/", Event.rateLimit,
       Event.fetch "https://www.allrecipes.com/recipe/z/", Event.rateLimit] :=
  ⟨by rfl, by rfl⟩

/-- Claim C8, amended. `_rate_limit()` runs exactly once per processed
candidate, *after* that candidate's fetch attempt(s) — trusted or not,
successful or failed — updating `last_request_time` in every case; all
events before it within one candidate are fetches.  Consequently the
first fetch of a run is not preceded by any limiter invocation, and
the fetches of one candidate's search-results resolution are not
separated by limiter calls. -/
theorem c8_limiter_after_each_candidate (env : Env) (fuel : Nat) (url : String) :
    ((processUrl env fuel url).2.dropLast.all isFetchEvent) = true ∧
    (processUrl env fuel url).2.getLast? = some Event.rateLimit := by
  simp only [processUrl]
  split
  · constructor
    · rw [List.dropLast_concat]
      exact scrapeFromUrl_events_fetch env fuel url (extractDomain url)
    · rw [List.getLast?_concat]
  · constructor
    · rfl
    · rfl

/-- Claim C10. `_extract_domain` is total (it is a plain function in the
model, mirroring the bare `except` in the source): whenever `urlparse`
raises — modelled by `netlocOf` returning an error, e.g. on mismatched
IPv6 brackets — it returns `""`; `""` is not among the ten registered
domains; and a candidate whose extracted domain is `""` is skipped by
the candidate loop with no fetch, only the trailing rate-limit tick. -/
theorem c10_extract_domain_total_and_skip :
    (∀ url : String, netlocOf url = .error () → extractDomain url = "") ∧
    trustedNames.contains "" = false ∧
    (∀ (env : Env) (fuel : Nat) (url : String), extractDomain url = "" →
       processUrl env fuel url = (none, [Event.rateLimit])) := by
  refine ⟨?_, by rfl, ?_⟩
  · intro url h
    simp [extractDomain, h]
  · intro env fuel url h
    apply processUrl_untrusted
    rw [h]
    rfl

/-- Claim C10 witness: the malformed candidate `http://[oops/x` parses to
domain `""` and is processed without any fetch. -/
theorem c10_extract_domain_total_and_skip_witness :
    netlocOf badUrl = .error () ∧
    extractDomain badUrl = "" ∧
    processUrl envDown 1 badUrl = (none, [Event.rateLimit]) :=
  ⟨by rfl,
   c10_extract_domain_total_and_skip.1 badUrl (by rfl),
   c10_extract_domain_total_and_skip.2.2 envDown 1 badUrl
     (c10_extract_domain_total_and_skip.1 badUrl (by rfl))⟩

theorem find?_filter_of_imp (l : List α) (p q : α → Bool)
    (h : ∀ a, p a = true → q a = true) :
    (l.filter q).find? p = l.find? p := by
  induction l with
  | nil => rfl
  | cons a t ih =>
    by_cases hpa : p a = true
    · have hqa := h a hpa
      simp [List.filter_cons, hqa, List.find?, hpa, ih]
    · have hpa2 : p a = false := by simpa using hpa
      by_cases hqa : q a = true
      · simp [List.filter_cons, hqa, List.find?, hpa2, ih]
      · have hqa2 : q a = false := by simpa using hqa
        simp [List.filter_cons, hqa2, List.find?, hpa2, ih]

theorem filter_filter_of_imp (l : List α) (p q : α → Bool)
    (h : ∀ a, p a = true → q a = true) :
    (l.filter q).filter p = l.filter p := by
  induction l with
  | nil => rfl
  | cons a t ih =>
    by_cases hpa : p a = true
    · have hqa := h a hpa
      simp [List.filter_cons, hqa, hpa, ih]
    · have hpa2 : p a = false := by simpa using hpa
      by_cases hqa : q a = true
      · simp [List.filter_cons, hqa, hpa2, ih]
      · have hqa2 : q a = false := by simpa using hqa
        simp [List.filter_cons, hqa2, hpa2, ih]

theorem tag_matcher_not_script (t : String) (ht : t ≠ "script") (e : Elem) (f : Elem → Bool)
    (h : (e.tag == t && f e) = true) : (!(e.tag == "script")) = true := by
  have h1 : e.tag = t := eq_of_beq (Bool.and_elim_left h)
  have h2 : (e.tag == "script") = false := by
    rw [h1]
    exact beq_eq_false_iff_ne.mpr ht
  rw [h2]
  rfl

theorem findTagClass_filter_no_script (soup : Soup) (t c : String) (ht : t ≠ "script") :
    findTagClass (soup.filter (fun e => !(e.tag == "script"))) t c = findTagClass soup t c := by
  unfold findTagClass
  exact find?_filter_of_imp soup _ _
    (fun a ha => tag_matcher_not_script t ht a (fun e => e.classes.contains c) ha)

theorem findAllTagClass_filter_no_script (soup : Soup) (t c : String) (ht : t ≠ "script") :
    findAllTagClass (soup.filter (fun e => !(e.tag == "script"))) t c =
      findAllTagClass soup t c := by
  unfold findAllTagClass
  exact filter_filter_of_imp soup _ _
    (fun a ha => tag_matcher_not_script t ht a (fun e => e.classes.contains c) ha)

/-- Claim C4, counterexample. The claim says structured JSON-LD extraction
is attempted first for *all ten* registered domains.  On a page whose
only content is a well-formed JSON-LD Recipe block, the FoodNetwork
extractor returns `None` (it never looks at scripts), while the
AllRecipes extractor returns the parsed structured record from the very
same page — the structured path exists only for `allrecipes.com`. -/
theorem c4_cx_foodnetwork_ignores_json_ld :
    scrapeFoodnetwork ldSoupC1 "u" = none ∧
    scrapeAllrecipes ldSoupC1 "u" =
      some [("name", .str "Chicken"), ("description", .str ""),
            ("ingredients", .arr [.str "2 cups rice"]),
            ("instructions", .arr [.str "Cook."])] :=
  ⟨by rfl, by rfl⟩

/-- Claim C4, amended. Only the `allrecipes.com` extractor attempts
structured JSON-LD extraction first: whenever the JSON-LD scan of a
page yields a parsed Recipe, `_scrape_allrecipes` returns exactly that
record, in preference to any HTML-selector result; the FoodNetwork
extractor is insensitive to the page's `<script>` elements (deleting
them all does not change its result), so it has no structured path. -/
theorem c4_structured_priority_allrecipes_only :
    (∀ (soup : Soup) (url : String) (r : RDict),
       scanLd (ldScripts soup) = some r → scrapeAllrecipes soup url = some r) ∧
    (∀ (soup : Soup) (url : String),
       scrapeFoodnetwork (soup.filter (fun e => !(e.tag == "script"))) url =
         scrapeFoodnetwork soup url) := by
  constructor
  · intro soup url r h
    simp only [scrapeAllrecipes, h]
  · intro soup url
    simp only [scrapeFoodnetwork,
      findTagClass_filter_no_script soup "h1" "o-AssetTitle__a-HeadlineText" (by decide),
      findTagClass_filter_no_script soup "div" "o-AssetDescription__a-Description" (by decide),
      findAllTagClass_filter_no_script soup "li" "o-Ingredients__a-ListItem" (by decide),
      findAllTagClass_filter_no_script soup "li" "o-Method__m-Step" (by decide),
      findAllTagClass_filter_no_script soup "span" "o-RecipeInfo__a-Description" (by decide)]

/-- Claim C4 witness: on `dualSoup` (JSON-LD block *and* HTML headline)
the AllRecipes extractor returns the structured record `recLD`, not the
HTML one. -/
theorem c4_structured_priority_allrecipes_only_witness :
    scanLd (ldScripts dualSoup) = some recLD ∧
    scrapeAllrecipes dualSoup "u" = some recLD :=
  ⟨by rfl,
   c4_structured_priority_allrecipes_only.1 dualSoup "u" recLD (by rfl)⟩

theorem dictGet_timeFold (els : List Elem) (r : RDict) (k : String)
    (h1 : k ≠ "prep_time") (h2 : k ≠ "cook_time") :
    dictGet (els.foldl timeMetaStep r) k = dictGet r k := by
  induction els generalizing r with
  | nil => rfl
  | cons e t ih =>
    rw [List.foldl_cons, ih]
    simp only [timeMetaStep]
    split
    · exact dictGet_dictSet_ne _ _ _ _ (Ne.symm h1)
    · split
      · exact dictGet_dictSet_ne _ _ _ _ (Ne.symm h2)
      · rfl

theorem fnShape_get (els : List Elem) (nv iv sv : JVal) :
    dictGet (els.foldl timeMetaStep
      (dictSet (dictSet (dictSet [] "name" nv) "ingredients" iv) "instructions" sv))
      "name" = some nv ∧
    dictGet (els.foldl timeMetaStep
      (dictSet (dictSet (dictSet [] "name" nv) "ingredients" iv) "instructions" sv))
      "ingredients" = some iv ∧
    dictGet (els.foldl timeMetaStep
      (dictSet (dictSet (dictSet [] "name" nv) "ingredients" iv) "instructions" sv))
      "instructions" = some sv ∧
    dictGet (els.foldl timeMetaStep
      (dictSet (dictSet (dictSet [] "name" nv) "ingredients" iv) "instructions" sv))
      "description" = none := by
  refine ⟨?_, ?_, ?_, ?_⟩
  · rw [dictGet_timeFold _ _ _ (by decide) (by decide),
      dictGet_dictSet_ne _ _ _ _ (by decide), dictGet_dictSet_ne _ _ _ _ (by decide),
      dictGet_dictSet_self]
  · rw [dictGet_timeFold _ _ _ (by decide) (by decide),
      dictGet_dictSet_ne _ _ _ _ (by decide), dictGet_dictSet_self]
  · rw [dictGet_timeFold _ _ _ (by decide) (by decide), dictGet_dictSet_self]
  · rw [dictGet_timeFold _ _ _ (by decide) (by decide),
      dictGet_dictSet_ne _ _ _ _ (by decide), dictGet_dictSet_ne _ _ _ _ (by decide),
      dictGet_dictSet_ne _ _ _ _ (by decide)]
    rfl

/-- Claim C9. Field lookups of the FoodNetwork HTML extractor succeed or
fail independently: on any page where the name selector matches with
non-empty text, the ingredient and instruction selectors yield at least
one non-empty item, and the description selector matches nothing, the
extraction still returns a record, that record passes
`_validate_recipe_data`, and its description is simply absent (empty)
rather than the extraction failing. -/
theorem c9_field_resilience (soup : Soup) (url : String) (e : Elem)
    (h1 : findTagClass soup "h1" "o-AssetTitle__a-HeadlineText" = some e)
    (h2 : (pyStrip e.text == "") = false)
    (h3 : findTagClass soup "div" "o-AssetDescription__a-Description" = none)
    (h4 : (collectTexts (findAllTagClass soup "li" "o-Ingredients__a-ListItem")).isEmpty
      = false)
    (h5 : (collectTexts (findAllTagClass soup "li" "o-Method__m-Step")).isEmpty = false) :
    (scrapeFoodnetwork soup url).isSome = true ∧
    validateRecipeData ((scrapeFoodnetwork soup url).getD []) = true ∧
    dictGet ((scrapeFoodnetwork soup url).getD []) "description" = none := by
  simp only [scrapeFoodnetwork, h1, h3]
  have hget := fnShape_get (findAllTagClass soup "span" "o-RecipeInfo__a-Description")
    (.str (pyStrip e.text))
    (.arr ((collectTexts (findAllTagClass soup "li" "o-Ingredients__a-ListItem")).map .str))
    (.arr ((collectTexts (findAllTagClass soup "li" "o-Method__m-Step")).map .str))
  have hnt : truthyOpt (some (JVal.str (pyStrip e.text))) = true := by
    simp [truthyOpt, JVal.truthy, h2]
  rw [hget.1, hnt]
  simp only [if_true, Option.isSome_some, Option.getD_some, true_and]
  constructor
  · simp only [validateRecipeData, List.all_cons, List.all_nil, Bool.and_eq_true, and_true]
    refine ⟨by rw [hget.1]; exact hnt, ?_, ?_⟩
    · rw [hget.2.1]
      simp only [truthyOpt, JVal.truthy]
      simp [List.isEmpty_iff, List.map_eq_nil_iff] at h4 ⊢
      intro hc
      exact h4 hc
    · rw [hget.2.2.1]
      simp only [truthyOpt, JVal.truthy]
      simp [List.isEmpty_iff, List.map_eq_nil_iff] at h5 ⊢
      intro hc
      exact h5 hc
  · exact hget.2.2.2

/-- Claim C9 witness: the concrete `fnSoup` page (name, one ingredient,
one step, no description element) extracts to a valid record without a
description. -/
theorem c9_field_resilience_witness :
    (scrapeFoodnetwork fnSoup "u").isSome = true ∧
    validateRecipeData ((scrapeFoodnetwork fnSoup "u").getD []) = true ∧
    dictGet ((scrapeFoodnetwork fnSoup "u").getD []) "description" = none :=
  c9_field_resilience fnSoup "u"
    { tag := "h1", classes := ["o-AssetTitle__a-HeadlineText"], attrs := [],
      text := "Good Soup" }
    (by rfl) (by rfl) (by rfl) (by rfl) (by rfl)

theorem parseTimes_get (d : List (String × JVal)) (r : RDict) (k : String)
    (h1 : k ≠ "prep_time") (h2 : k ≠ "cook_time") (h3 : k ≠ "total_time") :
    dictGet (parseTimes d r) k = dictGet r k := by
  have hp : ∀ (r2 : RDict) (v : JVal), dictGet (dictSet r2 "prep_time" v) k = dictGet r2 k :=
    fun r2 v => dictGet_dictSet_ne r2 "prep_time" k v (Ne.symm h1)
  have hc : ∀ (r2 : RDict) (v : JVal), dictGet (dictSet r2 "cook_time" v) k = dictGet r2 k :=
    fun r2 v => dictGet_dictSet_ne r2 "cook_time" k v (Ne.symm h2)
  have ht : ∀ (r2 : RDict) (v : JVal), dictGet (dictSet r2 "total_time" v) k = dictGet r2 k :=
    fun r2 v => dictGet_dictSet_ne r2 "total_time" k v (Ne.symm h3)
  simp only [parseTimes]
  repeat' split
  all_goals simp only [hp, hc, ht]

theorem parseNutrition_ok_get (d : List (String × JVal)) (r r2 : RDict) (k : String)
    (hk : k ≠ "nutrition") (h : parseNutrition d r = .ok r2) :
    dictGet r2 k = dictGet r k := by
  simp only [parseNutrition] at h
  split at h
  · split at h
    · cases h
    · rename_i parts _
      cases h
      split
      · rfl
      · exact dictGet_dictSet_ne _ _ _ _ (Ne.symm hk)
  · cases h
    rfl

theorem parse_ok_shape (d : List (String × JVal)) (r : RDict)
    (h : parseJsonLdRecipe d = .ok r) :
    ∃ ings insts, ingredientsOf d = .ok ings ∧ instructionsOf d = .ok insts ∧
      ∀ k, k ≠ "prep_time" → k ≠ "cook_time" → k ≠ "total_time" → k ≠ "nutrition" →
        dictGet r k = dictGet (dictSet (dictSet (dictSet (dictSet [] "name"
          ((jLookup d "name").getD (.str ""))) "description"
          ((jLookup d "description").getD (.str ""))) "ingredients" (.arr ings))
          "instructions" (.arr insts)) k := by
  rcases hE : ingredientsOf d with e | ings
  · simp only [parseJsonLdRecipe, hE] at h
    exact Except.noConfusion h
  · rcases hI : instructionsOf d with e2 | insts
    · simp only [parseJsonLdRecipe, hE, hI] at h
      exact Except.noConfusion h
    · simp only [parseJsonLdRecipe, hE, hI] at h
      exact ⟨ings, insts, rfl, rfl, fun k hk1 hk2 hk3 hk4 => by
        rw [parseNutrition_ok_get d _ r k hk4 h, parseTimes_get d _ k hk1 hk2 hk3]⟩

theorem nutriPart_obj (kvs : List (String × JVal)) (key label : String) (acc : List String) :
    nutriPart (.obj kvs) key label acc =
      .ok (acc ++ (match jLookup kvs key with
        | some v => [label ++ ": " ++ pyStr v]
        | none => [])) := by
  cases hv : jLookup kvs key with
  | none => simp [nutriPart, jContains, hv, jIndex]
  | some v => simp [nutriPart, jContains, hv, jIndex]

theorem nutritionParts_obj (kvs : List (String × JVal)) :
    nutritionParts (.obj kvs) = .ok (
      (match jLookup kvs "calories" with
        | some v => ["Calories: " ++ pyStr v] | none => []) ++
      (match jLookup kvs "proteinContent" with
        | some v => ["Protein: " ++ pyStr v] | none => []) ++
      (match jLookup kvs "carbohydrateContent" with
        | some v => ["Carbs: " ++ pyStr v] | none => []) ++
      (match jLookup kvs "fatContent" with
        | some v => ["Fat: " ++ pyStr v] | none => [])) := by
  simp only [nutritionParts, nutriPart_obj]
  simp [List.append_assoc]

/-- Claim C7. `_parse_json_ld_recipe` maps `recipeIngredient` to the
ingredients list keeping its string entries, maps each
`recipeInstructions` entry that is a string to itself and each entry
that is an object to its `text` field (skipping entries that are
neither, and falsy texts); the claim's end-to-end scenario holds
verbatim; and the four nutrition sub-fields present are joined as
`"Label: value"` strings with `", "`, the field staying absent when
all four are missing. -/
theorem c7_parse_json_ld_mapping :
    (∀ (d : List (String × JVal)) (r : RDict) (xs : List JVal),
       parseJsonLdRecipe d = .ok r →
       jLookup d "recipeIngredient" = some (.arr xs) →
       dictGet r "ingredients" =
         some (.arr (xs.filter (fun v => match v with | .str _ => true | _ => false)))) ∧
    (∀ (d : List (String × JVal)) (r : RDict) (ys : List JVal),
       parseJsonLdRecipe d = .ok r →
       jLookup d "recipeInstructions" = some (.arr ys) →
       dictGet r "instructions" =
         some (.arr (ys.filterMap (fun v => match v with
           | .str s => if s == "" then none else some (.str s)
           | .obj kvs =>
             if ((jLookup kvs "text").getD (.str "")).truthy
             then some ((jLookup kvs "text").getD (.str "")) else none
           | _ => none)))) ∧
    (∀ (d : List (String × JVal)) (r : RDict) (kvs : List (String × JVal)),
       parseJsonLdRecipe d = .ok r →
       jLookup d "nutrition" = some (.obj kvs) →
       dictGet r "nutrition" =
         (if ((match jLookup kvs "calories" with
                | some v => ["Calories: " ++ pyStr v] | none => []) ++
              (match jLookup kvs "proteinContent" with
                | some v => ["Protein: " ++ pyStr v] | none => []) ++
              (match jLookup kvs "carbohydrateContent" with
                | some v => ["Carbs: " ++ pyStr v] | none => []) ++
              (match jLookup kvs "fatContent" with
                | some v => ["Fat: " ++ pyStr v] | none => [])).isEmpty
          then none
          else some (.str (joinSep ", "
              ((match jLookup kvs "calories" with
                 | some v => ["Calories: " ++ pyStr v] | none => []) ++
               (match jLookup kvs "proteinContent" with
                 | some v => ["Protein: " ++ pyStr v] | none => []) ++
               (match jLookup kvs "carbohydrateContent" with
                 | some v => ["Carbs: " ++ pyStr v] | none => []) ++
               (match jLookup kvs "fatContent" with
                 | some v => ["Fat: " ++ pyStr v] | none => [])))))) ∧
    (dictGet ((parseJsonLdRecipe objC7).toOption.getD []) "ingredients" =
       some (.arr [.str "2 cups rice", .str "1 onion"]) ∧
     dictGet ((parseJsonLdRecipe objC7).toOption.getD []) "instructions" =
       some (.arr [.str "Boil rice", .str "Dice onion"]) ∧
     dictGet ((parseJsonLdRecipe objC7).toOption.getD []) "nutrition" =
       some (.str "Calories: 100 kcal, Fat: 2 g")) := by
  refine ⟨?_, ?_, ?_, by rfl, by rfl, by rfl⟩
  · intro d r xs hok hing
    obtain ⟨ings, insts, hE, hI, hget⟩ := parse_ok_shape d r hok
    have hEv : ingredientsOf d = .ok (xs.filter JVal.isStr) := by
      simp [ingredientsOf, hing, jMembers]
    rw [hEv] at hE
    injection hE with hE2
    have hfun : JVal.isStr = (fun v => match v with | JVal.str _ => true | _ => false) := by
      funext v
      cases v <;> rfl
    rw [hget "ingredients" (by decide) (by decide) (by decide) (by decide),
      dictGet_dictSet_ne _ _ _ _ (by decide), dictGet_dictSet_self, ← hE2, ← hfun]
  · intro d r ys hok hins
    obtain ⟨ings, insts, hE, hI, hget⟩ := parse_ok_shape d r hok
    have hIv : instructionsOf d = .ok (ys.filterMap instrText) := by
      simp [instructionsOf, hins, jMembers]
    rw [hIv] at hI
    injection hI with hI2
    have hfun : instrText = (fun v => match v with
        | JVal.str s => if s == "" then none else some (JVal.str s)
        | JVal.obj kvs =>
          if ((jLookup kvs "text").getD (.str "")).truthy
          then some ((jLookup kvs "text").getD (.str "")) else none
        | _ => none) := by
      funext v
      cases v with
      | str s => cases hs : (s == "") <;> simp [instrText, JVal.truthy, hs]
      | obj kvs => rfl
      | null => rfl
      | bool b => rfl
      | num n => rfl
      | arr l => rfl
    rw [hget "instructions" (by decide) (by decide) (by decide) (by decide),
      dictGet_dictSet_self, ← hI2, ← hfun]
  · intro d r kvs hok hn
    rcases hE : ingredientsOf d with e | ings
    · simp only [parseJsonLdRecipe, hE] at hok
      exact Except.noConfusion hok
    · rcases hI : instructionsOf d with e2 | insts
      · simp only [parseJsonLdRecipe, hE, hI] at hok
        exact Except.noConfusion hok
      · simp only [parseJsonLdRecipe, hE, hI, parseNutrition, hn, nutritionParts_obj] at hok
        split at hok
        · rename_i hemp
          injection hok with hok2
          rw [← hok2, parseTimes_get _ _ _ (by decide) (by decide) (by decide),
            dictGet_dictSet_ne _ _ _ _ (by decide), dictGet_dictSet_ne _ _ _ _ (by decide),
            dictGet_dictSet_ne _ _ _ _ (by decide), dictGet_dictSet_ne _ _ _ _ (by decide)]
          rw [if_pos hemp]
          rfl
        · rename_i hemp
          injection hok with hok2
          rw [← hok2, dictGet_dictSet_self, if_neg hemp]

/-- Claim C7 witness: the general mapping parts applied at the concrete
claim scenario `objC7`. -/
theorem c7_parse_json_ld_mapping_witness :
    parseJsonLdRecipe objC7 = .ok ((parseJsonLdRecipe objC7).toOption.getD []) ∧
    dictGet ((parseJsonLdRecipe objC7).toOption.getD []) "ingredients" =
      some (.arr [.str "2 cups rice", .str "1 onion"]) ∧
    dictGet ((parseJsonLdRecipe objC7).toOption.getD []) "instructions" =
      some (.arr [.str "Boil rice", .str "Dice onion"]) ∧
    dictGet ((parseJsonLdRecipe objC7).toOption.getD []) "nutrition" =
      some (.str "Calories: 100 kcal, Fat: 2 g") :=
  ⟨by rfl,
   (c7_parse_json_ld_mapping.1 objC7 _ [.str "2 cups rice", .str "1 onion"]
     (by rfl) (by rfl)).trans (by rfl),
   (c7_parse_json_ld_mapping.2.1 objC7 _ [.obj [("text", .str "Boil rice")], .str "Dice onion"]
     (by rfl) (by rfl)).trans (by rfl),
   (c7_parse_json_ld_mapping.2.2.1 objC7 _
     [("calories", .str "100 kcal"), ("fatContent", .str "2 g")]
     (by rfl) (by rfl)).trans (by rfl)⟩

theorem takeWhile_digits_append (num rest : List Char)
    (h : num.all Char.isDigit = true) :
    (num ++ '.' :: rest).takeWhile Char.isDigit = num := by
  induction num with
  | nil => simp [List.takeWhile]
  | cons c cs ih =>
    simp only [List.all_cons, Bool.and_eq_true] at h
    simp [List.takeWhile, h.1, ih h.2]

theorem dropWhile_digits_append (num rest : List Char)
    (h : num.all Char.isDigit = true) :
    (num ++ '.' :: rest).dropWhile Char.isDigit = '.' :: rest := by
  induction num with
  | nil => simp [List.dropWhile]
  | cons c cs ih =>
    simp only [List.all_cons, Bool.and_eq_true] at h
    simp [List.dropWhile, h.1, ih h.2]

theorem wordsAux_words_ok :
    ∀ (l cur : List Char), cur.all (fun c => !pyIsSpace c) = true →
      ∀ w ∈ wordsAux cur l, w ≠ [] ∧ w.all (fun c => !pyIsSpace c) = true := by
  intro l
  induction l with
  | nil =>
    intro cur hcur w hw
    simp only [wordsAux] at hw
    split at hw
    · cases hw
    · rename_i hne
      have : w = cur.reverse := by simpa using hw
      subst this
      refine ⟨?_, by simpa using hcur⟩
      intro hc
      rw [List.reverse_eq_nil_iff] at hc
      exact hne (by simp [hc])
  | cons c cs ih =>
    intro cur hcur w hw
    simp only [wordsAux] at hw
    split at hw
    · split at hw
      · exact ih [] (by simp) w hw
      · rename_i hne
        rcases List.mem_cons.mp hw with hh | ht
        · subst hh
          refine ⟨?_, by simpa using hcur⟩
          intro hc
          rw [List.reverse_eq_nil_iff] at hc
          exact hne (by simp [hc])
        · exact ih [] (by simp) w ht
    · rename_i hcsp
      have : ((c :: cur).all (fun c => !pyIsSpace c)) = true := by
        simp only [List.all_cons, Bool.and_eq_true]
        exact ⟨by simpa using hcsp, hcur⟩
      exact ih (c :: cur) this w hw

theorem wordsAux_chunk :
    ∀ (w cur t : List Char), w.all (fun c => !pyIsSpace c) = true →
      wordsAux cur (w ++ t) = wordsAux (w.reverse ++ cur) t := by
  intro w
  induction w with
  | nil => intro cur t _; simp
  | cons c cs ih =>
    intro cur t h
    simp only [List.all_cons, Bool.and_eq_true] at h
    have hcsp : pyIsSpace c = false := by
      have := h.1
      cases hx : pyIsSpace c
      · rfl
      · rw [hx] at this; cases this
    simp only [List.cons_append, wordsAux, hcsp, Bool.false_eq_true, if_false]
    show wordsAux (c :: cur) (cs ++ t) = _
    rw [ih (c :: cur) t h.2]
    simp

theorem joinSep_space_data (x : String) (ws : List String) :
    (joinSep " " (x :: ws)).data =
      x.data ++ (match ws with
        | [] => []
        | _ :: _ => ' ' :: (joinSep " " ws).data) := by
  cases ws with
  | nil => simp [joinSep]
  | cons y t =>
    show (x ++ " " ++ joinSep " " (y :: t)).data = _
    rw [String.data_append, String.data_append, List.append_assoc]
    rfl

theorem wordsAux_joinSep :
    ∀ (ws : List String),
      (∀ w ∈ ws, w.data ≠ [] ∧ w.data.all (fun c => !pyIsSpace c) = true) →
      wordsAux [] (joinSep " " ws).data = ws.map String.data := by
  intro ws
  induction ws with
  | nil => intro _; rfl
  | cons x t ih =>
    intro h
    have hx := h x (by simp)
    rw [joinSep_space_data]
    cases t with
    | nil =>
      have : x.data ++ (match ([] : List String) with
          | [] => ([] : List Char)
          | _ :: _ => ' ' :: (joinSep " " []).data) = x.data ++ [] := rfl
      rw [this, wordsAux_chunk x.data [] [] hx.2]
      simp only [wordsAux, List.append_nil]
      rw [if_neg]
      · simp
      · simp only [List.isEmpty_eq_true, List.reverse_eq_nil_iff]
        exact hx.1
    | cons y t2 =>
      have hstep : x.data ++ (match (y :: t2 : List String) with
          | [] => ([] : List Char)
          | _ :: _ => ' ' :: (joinSep " " (y :: t2)).data) =
          x.data ++ (' ' :: (joinSep " " (y :: t2)).data) := rfl
      rw [hstep, wordsAux_chunk x.data [] _ hx.2]
      simp only [List.append_nil, wordsAux]
      have hsp : pyIsSpace ' ' = true := by decide
      rw [if_pos hsp]
      rw [if_neg (by simp only [List.isEmpty_eq_true, List.reverse_eq_nil_iff]; exact hx.1)]
      rw [ih (fun w hw => h w (by simp [hw]))]
      simp

theorem pySplitWs_joinSep (ws : List String)
    (h : ∀ w ∈ ws, w.data ≠ [] ∧ w.data.all (fun c => !pyIsSpace c) = true) :
    pySplitWs (joinSep " " ws) = ws := by
  unfold pySplitWs
  rw [wordsAux_joinSep ws h, List.map_map]
  have h2 : ∀ w ∈ ws, ((fun l => (⟨l⟩ : String)) ∘ String.data) w = w := fun w _ => rfl
  rw [List.map_congr_left h2]
  simp

/-- Claim C6. `_clean_recipe_name` strips one leading ordinal marker
(digit run, dot, following whitespace), removes every word whose
lower-casing is in the fixed stop-word set, and re-joins with single
spaces: the claim's example cleans to `"Chicken Curry"`, no word of any
cleaned name lower-cases into the stop-word set, and each of the three
search strategies depends on the recipe name only through
`_clean_recipe_name`. -/
theorem c6_clean_recipe_name :
    cleanRecipeName "1. Ultimate Chicken Curry" = "Chicken Curry" ∧
    (∀ (num rest : List Char), num ≠ [] → num.all Char.isDigit = true →
       stripOrdinal (num ++ '.' :: rest) = rest.dropWhile pyIsSpace) ∧
    (∀ (s w : String), w ∈ pySplitWs (cleanRecipeName s) →
       stopWords.contains (pyLower w) = false) ∧
    (∀ (n1 n2 : String), cleanRecipeName n1 = cleanRecipeName n2 →
       (∀ (env : Env) (m : Int), searchRecipeUrls env n1 m = searchRecipeUrls env n2 m) ∧
       (∀ m : Int, searchWithDirectUrls n1 m = searchWithDirectUrls n2 m) ∧
       (∀ m : Int, searchWithAllrecipesDirect n1 m = searchWithAllrecipesDirect n2 m)) := by
  refine ⟨by rfl, ?_, ?_, ?_⟩
  · intro num rest hne hall
    simp only [stripOrdinal]
    rw [takeWhile_digits_append num rest hall, dropWhile_digits_append num rest hall]
    have hie : num.isEmpty = false := by
      cases num with
      | nil => exact absurd rfl hne
      | cons a t => rfl
    simp [hie]
  · intro s w hw
    simp only [cleanRecipeName] at hw
    have hmem2 : ∀ w2 ∈ (pySplitWs (⟨stripOrdinal (pyStrip s).data⟩ : String)).filter
        (fun w2 => !stopWords.contains (pyLower w2)),
        w2.data ≠ [] ∧ w2.data.all (fun c => !pyIsSpace c) = true := by
      intro w2 hw2
      have hw3 := List.mem_of_mem_filter hw2
      simp only [pySplitWs, List.mem_map] at hw3
      obtain ⟨l, hl, rfl⟩ := hw3
      exact wordsAux_words_ok _ [] (by simp) l hl
    rw [pySplitWs_joinSep _ hmem2] at hw
    have := List.of_mem_filter hw
    simpa using this
  · intro n1 n2 h
    refine ⟨?_, ?_, ?_⟩
    · intro env m
      simp only [searchRecipeUrls, ddgApiUrl, h]
    · intro m
      simp only [searchWithDirectUrls, h]
    · intro m
      simp only [searchWithAllrecipesDirect, h]

/-- Claim C6 witness: the theorem's parts instantiated at the claim's
example name. -/
theorem c6_clean_recipe_name_witness :
    cleanRecipeName "1. Ultimate Chicken Curry" = "Chicken Curry" ∧
    stripOrdinal (['1'] ++ '.' :: [' ', 'a']) = [' ', 'a'].dropWhile pyIsSpace ∧
    stopWords.contains (pyLower "Chicken") = false ∧
    searchWithDirectUrls "1. Ultimate Chicken Curry" 2 =
      searchWithDirectUrls "Chicken Curry" 2 :=
  ⟨c6_clean_recipe_name.1,
   c6_clean_recipe_name.2.1 ['1'] [' ', 'a'] (by decide) (by decide),
   c6_clean_recipe_name.2.2.1 "1. Ultimate Chicken Curry" "Chicken" (by decide),
   (c6_clean_recipe_name.2.2.2 "1. Ultimate Chicken Curry" "Chicken Curry" (by rfl)).2.1 2⟩
